import Mathlib

/-!
Shallow embedding of the fortnite-replay-api upload pipeline.

The repository is a set of near-duplicate Express servers around one
external parser call.  We embed the request-handling pipelines as pure
Lean functions:

* the external parser (opaque) becomes an oracle
  `Parser : List Nat → ParseConfig → Except String Nat` (the decoded
  document is abstracted as a `Nat`, since the code never inspects it);
* the uploaded file body is a byte list `List Nat`;
* filesystem unlink is an oracle `Nat → Option String` giving, for the
  n-th unlink attempt of the request, `none` (succeeds) or
  `some errMessage` (raises); a guarded `unlink(p).catch(() => ())` in the
  source discards that result, an unguarded `await unlink(p)` branches on it;
* every parser invocation and unlink attempt is recorded in an event
  trace, so call counts and call order are observable.

`handleUpload` embeds the POST /upload handler of src/index.js
(lines 148-253).  `p2Handle` embeds the handler of src/unnamed/part_002
(lines 174-259, including safeParseReplay).  `tvHandle` embeds the
timeout variant of src/unnamed/part_000 (lines 120-171), where the
parser call races a fixed 10-second delay.
-/

/-- One configuration object passed to the external parser.  JS object
keys that a given call site omits are modelled as `none`. -/
structure ParseConfig where
  parseLevel : Nat
  debug : Option Bool
  skipChunkErrors : Option Bool
  failOnChunkError : Option Bool
deriving DecidableEq, Repr

/-- The opaque external parser: buffer and configuration in, decoded
document (abstracted as a number) or thrown error message out. -/
def Parser : Type := List Nat → ParseConfig → Except String Nat

/-- Configuration of the light header-only attempt in index.js lines
174-177: parseLevel 0, debug false. -/
def lightConfig : ParseConfig := ⟨0, some false, none, none⟩

/-- Configuration of the first (strict) full-depth attempt in index.js
lines 214-217: parseLevel 1, debug false. -/
def fullStrictConfig : ParseConfig := ⟨1, some false, none, none⟩

/-- Configuration of the relaxed full-depth retry in index.js lines
222-227: parseLevel 1, debug false, skipChunkErrors true,
failOnChunkError false. -/
def fullPermissiveConfig : ParseConfig := ⟨1, some false, some true, some false⟩

/-- One observable side effect of a request: a parser invocation with its
configuration, or an unlink attempt (recording whether the filesystem
raised on it). -/
inductive Event where
  | parse (cfg : ParseConfig)
  | unlink (raised : Bool)
deriving DecidableEq, Repr

/-- The parser invocations of a trace, in order. -/
def parseCalls (tr : List Event) : List ParseConfig :=
  tr.filterMap fun e =>
    match e with
    | .parse c => some c
    | .unlink _ => none

/-- How many unlink attempts a trace contains. -/
def countUnlinks (tr : List Event) : Nat :=
  (tr.filterMap fun e =>
    match e with
    | .parse _ => none
    | .unlink b => some b).length

/-- Decode a byte list to a string one byte per character.  On ASCII
bytes this agrees with Buffer.toString of the source; a comparison of
the decoded bytes with the pure-ASCII literal string is therefore
faithful to the source comparison for every byte value. -/
def asciiDecode (bs : List Nat) : String :=
  String.mk (bs.map fun b => Char.ofNat b)

/-- The bytes of the expected magic signature "ubulk" (index.js line
185). -/
def ubulkBytes : List Nat := [117, 98, 117, 108, 107]

/-- Little-endian value of a byte list (least significant byte first). -/
def leValue : List Nat → Nat
  | [] => 0
  | b :: rest => b + 256 * leValue rest

/-- Buffer.readUInt32LE: the unsigned 32-bit little-endian integer at
byte offset off (index.js line 189). -/
def readUInt32LE (buf : List Nat) (off : Nat) : Nat :=
  leValue ((buf.drop off).take 4)

/-- Note string attached to the manually extracted header (index.js line
193). -/
def manualNote : String := "Header extracted manually; full parser failed."

/-- Header data carried by a response: either the opaque document the
parser returned at header depth, or the manual fallback summary of
index.js lines 184-194 (magic string, version, note). -/
inductive HeaderData where
  | parsed (doc : Nat)
  | manual (magic : String) (version : Nat) (note : String)
deriving DecidableEq, Repr

/-- The magic string of the manual fallback: first five bytes decoded
(index.js line 184). -/
def manualMagic (buf : List Nat) : String := asciiDecode (buf.take 5)

/-- The manual fallback header of index.js lines 190-194. -/
def manualHeader (buf : List Nat) : HeaderData :=
  .manual (manualMagic buf) (readUInt32LE buf 5) manualNote

/-- JSON responses of the index.js upload handler, abstracted to their
distinguishing payload.  badRequest is a status-400 error body,
serverError a status-500 error body, headerMinimal the success body of
type HEADER_MINIMAL, full the success body of type FULL.  The
development-mode stack-trace detail field is not modelled. -/
inductive Response where
  | badRequest (error : String)
  | serverError (error : String)
  | headerMinimal (header : HeaderData) (message : String)
  | full (header : HeaderData) (data : Nat)
deriving DecidableEq, Repr

/-- Error message of index.js line 150. -/
def noFileMsg : String := "No file uploaded."

/-- Error message of index.js line 159. -/
def extErrMsg : String := "Only .replay files are allowed."

/-- Error message of index.js line 168. -/
def tooSmallMsg : String := "File is too small to be a valid replay."

/-- Error message of index.js line 186. -/
def magicMismatchMsg : String := "Not a valid .replay (magic mismatch)."

/-- Message of the HEADER_MINIMAL success body, index.js lines 206-207. -/
def headerMinimalMsg : String :=
  "Header parsed (either fully or minimally). To attempt a full chunk parse, re-upload with “?full=true”."

/-- Error message of index.js lines 230-232. -/
def fullFailMsg : String :=
  "Full parse failed. The replay is likely from a newer Fortnite build not yet supported or has malformed chunks."

/-- ASCII lower-casing of one character, the fragment of JS toLowerCase
the extension check depends on. -/
def asciiLowerChar (c : Char) : Char :=
  if 'A' ≤ c ∧ c ≤ 'Z' then Char.ofNat (c.toNat + 32) else c

/-- ASCII lower-casing of a string. -/
def lowerString (s : String) : String := String.mk (s.data.map asciiLowerChar)

/-- Index of the last dot of a character list, if any. -/
def lastDotIdx (b : List Char) : Option Nat :=
  match b.reverse.findIdx? (fun c => c = '.') with
  | none => none
  | some j => some (b.length - 1 - j)

/-- Node path.extname on a posix path: the suffix of the basename from
its last dot, empty when the basename has no dot, when its only dot is
the leading dot of a dotfile, or when the basename is "." or "..". -/
def extname (s : String) : String :=
  let b := (s.data.reverse.takeWhile (fun c => c ≠ '/')).reverse
  if b = ['.'] ∨ b = ['.', '.'] then ""
  else
    match lastDotIdx b with
    | none => ""
    | some 0 => ""
    | some i => String.mk (b.drop i)

/-- path.extname(originalname).toLowerCase() of index.js line 154. -/
def extLower (originalname : String) : String := lowerString (extname originalname)

/-- The uploaded file as the handler sees it: declared original name and
the bytes read back from the temp location. -/
structure UploadFile where
  originalname : String
  bytes : List Nat
deriving DecidableEq, Repr

/-- Steps 5-7 of the index.js handler (lines 197-243), entered with the
header data already obtained: return the HEADER_MINIMAL body unless
full=true was passed, otherwise run the strict full-depth attempt and,
on a throw, exactly one relaxed retry; a second throw becomes the
full-parse failure error of the surrounding catch (lines 228-233 and
244-252).  Every terminal branch performs one guarded unlink. -/
def afterHeader (parser : Parser) (unlinkErr : Nat → Option String)
    (buf : List Nat) (full : Bool) (header : HeaderData) (tr : List Event) :
    Response × List Event :=
  if !full then
    (.headerMinimal header headerMinimalMsg, tr ++ [Event.unlink (unlinkErr 0).isSome])
  else
    match parser buf fullStrictConfig with
    | .ok d =>
        (.full header d,
         tr ++ [Event.parse fullStrictConfig, Event.unlink (unlinkErr 0).isSome])
    | .error _ =>
        match parser buf fullPermissiveConfig with
        | .ok d =>
            (.full header d,
             tr ++ [Event.parse fullStrictConfig, Event.parse fullPermissiveConfig,
                    Event.unlink (unlinkErr 0).isSome])
        | .error _ =>
            (.serverError fullFailMsg,
             tr ++ [Event.parse fullStrictConfig, Event.parse fullPermissiveConfig,
                    Event.unlink (unlinkErr 0).isSome])

/-- The POST /upload handler of src/index.js lines 148-253.  Returns the
response together with the trace of parser invocations and unlink
attempts, in order.  Notes on the embedding: the multer 50 MiB body
ceiling is enforced by the collaborator before this handler runs and is
not modelled; the magic comparison of line 185 compares the five bytes
against the bytes of "ubulk", which is equivalent to the source
comparison of the UTF-8 decoding with the ASCII literal; every unlink in
this handler carries .catch(() => \x7b\x7d), so the unlink outcome is
recorded in the trace and discarded. -/
def handleUpload (parser : Parser) (unlinkErr : Nat → Option String)
    (file : Option UploadFile) (full : Bool) : Response × List Event :=
  match file with
  | none => (.badRequest noFileMsg, [])
  | some f =>
      if extLower f.originalname ≠ ".replay" then
        (.badRequest extErrMsg, [Event.unlink (unlinkErr 0).isSome])
      else
        let buf := f.bytes
        if buf.length < 100 then
          (.serverError tooSmallMsg, [Event.unlink (unlinkErr 0).isSome])
        else
          match parser buf lightConfig with
          | .ok doc =>
              afterHeader parser unlinkErr buf full (.parsed doc)
                [Event.parse lightConfig]
          | .error _ =>
              if buf.take 5 ≠ ubulkBytes then
                (.serverError magicMismatchMsg,
                 [Event.parse lightConfig, Event.unlink (unlinkErr 0).isSome])
              else
                afterHeader parser unlinkErr buf full (manualHeader buf)
                  [Event.parse lightConfig]

/-- Multer fileFilter of src/unnamed/part_000 lines 16-22 and
src/unnamed/part_002 lines 15-21: accept exactly the files whose
lower-cased extension is ".replay", otherwise error before the handler
runs. -/
def fileFilter (originalname : String) : Except String Unit :=
  if extLower originalname = ".replay" then .ok () else .error "Only .replay files are allowed"

/-- First attempt of the part_002 ladder (line 176): parseLevel 0 only. -/
def p2Attempt0 : ParseConfig := ⟨0, none, none, none⟩

/-- Second attempt of the part_002 ladder (lines 177-182). -/
def p2Attempt1 : ParseConfig := ⟨1, some false, some true, some false⟩

/-- Third attempt of the part_002 ladder (lines 183-188). -/
def p2Attempt2 : ParseConfig := ⟨1, some true, some true, some false⟩

/-- The ordered attempt ladder of safeParseReplay, part_002 lines 175-189. -/
def p2Attempts : List ParseConfig := [p2Attempt0, p2Attempt1, p2Attempt2]

/-- Loop body of safeParseReplay (part_002 lines 191-204): try each
configuration in order, return the first success, remember the last
error; when all attempts fail, throw the last error (or the fixed
message when the ladder was empty). -/
def safeParseGo (parser : Parser) (buf : List Nat) (lastErr : Option String) :
    List ParseConfig → Except String Nat × List Event
  | [] => (.error (lastErr.getD "All parse attempts failed"), [])
  | c :: rest =>
      match parser buf c with
      | .ok r => (.ok r, [Event.parse c])
      | .error e =>
          let res := safeParseGo parser buf (some e) rest
          (res.fst, Event.parse c :: res.snd)

/-- safeParseReplay of part_002 lines 174-205. -/
def safeParseReplay (parser : Parser) (buf : List Nat) : Except String Nat × List Event :=
  safeParseGo parser buf none p2Attempts

/-- Responses of the part_002 upload handler: the 400 no-file body, the
500 failure body (whose details.message field carries the thrown error
message; the fixed top-level error string and advice lists are
constant), and the success body with its data payload. -/
inductive P2Response where
  | noFile
  | failure (message : String)
  | success (data : Nat)
deriving DecidableEq, Repr

/-- Error message of part_002 line 219 (no trailing period in this
variant). -/
def p2TooSmallMsg : String := "File is too small to be a valid replay"

/-- The POST /upload handler of src/unnamed/part_002 lines 208-259.  The
failure path unlink (line 235) is guarded with .catch(() => \x7b\x7d), but the
success path unlink (line 226) is an unguarded await: when the
filesystem raises there, control jumps to the catch block, which
performs a second, guarded unlink and returns the failure body with the
unlink error as its message. -/
def p2Handle (parser : Parser) (unlinkErr : Nat → Option String)
    (file : Option (List Nat)) : P2Response × List Event :=
  match file with
  | none => (.noFile, [])
  | some buf =>
      if buf.length < 100 then
        (.failure p2TooSmallMsg, [Event.unlink (unlinkErr 0).isSome])
      else
        match safeParseReplay parser buf with
        | (.ok d, evs) =>
            match unlinkErr 0 with
            | some emsg =>
                (.failure emsg,
                 evs ++ [Event.unlink true, Event.unlink (unlinkErr 1).isSome])
            | none => (.success d, evs ++ [Event.unlink false])
        | (.error m, evs) =>
            (.failure m, evs ++ [Event.unlink (unlinkErr 0).isSome])

/-- Configuration of the single parse attempt of the timeout variant,
src/unnamed/part_000 lines 132-137. -/
def tvConfig : ParseConfig := ⟨1, some false, some true, some false⟩

/-- The fixed delay the parser call races against, part_000 line 143:
10000 milliseconds. -/
def parseTimeoutMs : Nat := 10000

/-- Rejection message of the timeout promise, part_000 line 143. -/
def timeoutMsg : String := "Parsing timeout"

/-- Responses of the timeout variant handler: 400 no-file body, 500
failure body (error string, message field carrying the thrown message,
suggestions list are otherwise constant), success body. -/
inductive TVResponse where
  | noFile
  | failure (message : String)
  | success (data : Nat)
deriving DecidableEq, Repr

/-- The POST /upload handler of the timeout variant, src/unnamed/part_000
lines 120-171.  The parser call is raced against the fixed delay
(Promise.race, lines 140-145): the race outcome is modelled by the
timedOut flag — when true the race settles with the timeout rejection,
otherwise with the parser's own outcome; the parse invocation itself is
recorded either way, since parseReplay is called before the race
settles.  The success path unlink (line 147) is unguarded; the catch
path unlink (line 155) swallows its own error. -/
def tvHandle (parser : Parser) (unlinkErr : Nat → Option String)
    (file : Option (List Nat)) (timedOut : Bool) : TVResponse × List Event :=
  match file with
  | none => (.noFile, [])
  | some buf =>
      let raced : Except String Nat :=
        if timedOut then .error timeoutMsg else parser buf tvConfig
      match raced with
      | .ok d =>
          match unlinkErr 0 with
          | some emsg =>
              (.failure emsg,
               [Event.parse tvConfig, Event.unlink true, Event.unlink (unlinkErr 1).isSome])
          | none => (.success d, [Event.parse tvConfig, Event.unlink false])
      | .error m =>
          (.failure m, [Event.parse tvConfig, Event.unlink (unlinkErr 0).isSome])

/-- Decoding the magic bytes gives the literal magic string. -/
theorem asciiDecode_ubulk : asciiDecode ubulkBytes = "ubulk" := by decide

/-- C4: an uploaded buffer shorter than 9 bytes fails with the
undersized-input outcome and the external parser is never invoked: the
index.js size guard (line 167) throws before the first parser call, so
the parser-call branch is unreachable for such buffers. -/
theorem c4_undersized (parser : Parser) (uerr : Nat → Option String)
    (name : String) (buf : List Nat) (full : Bool)
    (hext : extLower name = ".replay") (hlen : buf.length < 9) :
    (handleUpload parser uerr (some ⟨name, buf⟩) full).fst = .serverError tooSmallMsg ∧
    parseCalls (handleUpload parser uerr (some ⟨name, buf⟩) full).snd = [] := by
  have hlen' : buf.length < 100 := by omega
  simp [handleUpload, hext, hlen', parseCalls]

/-- Witness for c4_undersized at a concrete 3-byte upload. -/
theorem c4_undersized_witness :
    extLower "a.replay" = ".replay" ∧ ([1, 2, 3] : List Nat).length < 9 ∧
    ((handleUpload (fun _ _ => Except.ok 0) (fun _ => none)
        (some ⟨"a.replay", [1, 2, 3]⟩) false).fst = .serverError tooSmallMsg ∧
      parseCalls (handleUpload (fun _ _ => Except.ok 0) (fun _ => none)
        (some ⟨"a.replay", [1, 2, 3]⟩) false).snd = []) :=
  ⟨by decide, by decide,
    c4_undersized (fun _ _ => Except.ok 0) (fun _ => none) "a.replay" [1, 2, 3] false
      (by decide) (by decide)⟩

/-- C10: the main variant enforces a minimum size of 100 bytes, not 9 —
every buffer shorter than 100 bytes is rejected with the message of
tooSmallMsg and without any parser invocation, regardless of its
contents, so no input of length 9 through 99 can reach the parser or
the degraded-summary path. -/
theorem c10_min_size_100 (parser : Parser) (uerr : Nat → Option String)
    (name : String) (buf : List Nat) (full : Bool)
    (hext : extLower name = ".replay") (hlen : buf.length < 100) :
    (handleUpload parser uerr (some ⟨name, buf⟩) full).fst = .serverError tooSmallMsg ∧
    parseCalls (handleUpload parser uerr (some ⟨name, buf⟩) full).snd = [] := by
  simp [handleUpload, hext, hlen, parseCalls]

/-- Witness for c10_min_size_100 at a 50-byte upload whose first 9 bytes
are a valid signature and version. -/
theorem c10_min_size_100_witness :
    extLower "a.replay" = ".replay" ∧
    (ubulkBytes ++ [1, 0, 0, 0] ++ List.replicate 41 7).length < 100 ∧
    ((handleUpload (fun _ _ => Except.ok 0) (fun _ => none)
        (some ⟨"a.replay", ubulkBytes ++ [1, 0, 0, 0] ++ List.replicate 41 7⟩) false).fst
        = .serverError tooSmallMsg ∧
      parseCalls (handleUpload (fun _ _ => Except.ok 0) (fun _ => none)
        (some ⟨"a.replay", ubulkBytes ++ [1, 0, 0, 0] ++ List.replicate 41 7⟩) false).snd = []) :=
  ⟨by decide, by decide,
    c10_min_size_100 (fun _ _ => Except.ok 0) (fun _ => none) "a.replay"
      (ubulkBytes ++ [1, 0, 0, 0] ++ List.replicate 41 7) false (by decide) (by decide)⟩

/-- C8: for every buffer of at least 9 bytes, the manual fallback header
carries as signature the ASCII decoding of bytes 0 through 4 and as
version the unsigned 32-bit little-endian integer formed by bytes 5
through 8. -/
theorem c8_manual_extraction (buf : List Nat) (h : 9 ≤ buf.length) :
    manualHeader buf = HeaderData.manual
      (asciiDecode [buf.getD 0 0, buf.getD 1 0, buf.getD 2 0, buf.getD 3 0, buf.getD 4 0])
      (buf.getD 5 0 + 256 * buf.getD 6 0 + 65536 * buf.getD 7 0 + 16777216 * buf.getD 8 0)
      manualNote := by
  rcases buf with _ | ⟨b0, _ | ⟨b1, _ | ⟨b2, _ | ⟨b3, _ | ⟨b4, _ | ⟨b5, _ | ⟨b6, _ | ⟨b7, _ | ⟨b8, rest⟩⟩⟩⟩⟩⟩⟩⟩⟩ <;>
    first
      | (exfalso; simp only [List.length_cons, List.length_nil] at h; omega)
      | (simp [manualHeader, manualMagic, readUInt32LE, leValue]; ring)

/-- Witness for c8_manual_extraction at a concrete 9-byte buffer. -/
theorem c8_manual_extraction_witness :
    9 ≤ ([117, 98, 117, 108, 107, 2, 1, 0, 0] : List Nat).length ∧
    manualHeader [117, 98, 117, 108, 107, 2, 1, 0, 0] = HeaderData.manual
      (asciiDecode [117, 98, 117, 108, 107]) (2 + 256 * 1 + 65536 * 0 + 16777216 * 0)
      manualNote :=
  ⟨by decide, c8_manual_extraction [117, 98, 117, 108, 107, 2, 1, 0, 0] (by decide)⟩

/-- C2: with the full flag unset and a buffer passing the size check, if
the single header-only invocation throws but the first 5 bytes equal the
signature, the request still completes with the success-shaped
HEADER_MINIMAL body carrying the degraded summary (correct signature,
correct version, manual-extraction note), no error is surfaced, and the
parser was invoked exactly once. -/
theorem c2_degraded_fallback (parser : Parser) (uerr : Nat → Option String)
    (name : String) (buf : List Nat) (e : String)
    (hext : extLower name = ".replay") (hlen : 100 ≤ buf.length)
    (hlight : parser buf lightConfig = .error e)
    (hmagic : buf.take 5 = ubulkBytes) :
    (handleUpload parser uerr (some ⟨name, buf⟩) false).fst
      = .headerMinimal (.manual "ubulk" (readUInt32LE buf 5) manualNote) headerMinimalMsg ∧
    parseCalls (handleUpload parser uerr (some ⟨name, buf⟩) false).snd = [lightConfig] := by
  have hlen' : ¬ (buf.length < 100) := by omega
  simp [handleUpload, hext, hlen', hlight, hmagic, afterHeader, manualHeader, manualMagic,
        asciiDecode_ubulk, parseCalls]

/-- Witness for c2_degraded_fallback at a concrete 100-byte upload with a
valid signature and version 1, under a parser that always throws. -/
theorem c2_degraded_fallback_witness :
    extLower "a.replay" = ".replay" ∧
    100 ≤ (ubulkBytes ++ [1, 0, 0, 0] ++ List.replicate 91 0).length ∧
    (fun _ _ => Except.error "boom" : Parser)
        (ubulkBytes ++ [1, 0, 0, 0] ++ List.replicate 91 0) lightConfig = .error "boom" ∧
    (ubulkBytes ++ [1, 0, 0, 0] ++ List.replicate 91 0).take 5 = ubulkBytes ∧
    ((handleUpload (fun _ _ => Except.error "boom") (fun _ => none)
        (some ⟨"a.replay", ubulkBytes ++ [1, 0, 0, 0] ++ List.replicate 91 0⟩) false).fst
        = .headerMinimal
            (.manual "ubulk" (readUInt32LE (ubulkBytes ++ [1, 0, 0, 0] ++ List.replicate 91 0) 5)
              manualNote) headerMinimalMsg ∧
      parseCalls (handleUpload (fun _ _ => Except.error "boom") (fun _ => none)
        (some ⟨"a.replay", ubulkBytes ++ [1, 0, 0, 0] ++ List.replicate 91 0⟩) false).snd
        = [lightConfig]) :=
  ⟨by decide, by decide, rfl, by decide,
    c2_degraded_fallback (fun _ _ => Except.error "boom") (fun _ => none) "a.replay"
      (ubulkBytes ++ [1, 0, 0, 0] ++ List.replicate 91 0) "boom"
      (by decide) (by decide) rfl (by decide)⟩

/-- C1: for a full=true request in which the strict full-depth invocation
throws, the handler retries exactly once with the relaxed permissiveness
flags (skipChunkErrors true, failOnChunkError false), the two full-depth
invocations happen strict-first then permissive, and when the retry also
throws the request ends in the full-parse failure body with no further
parser invocation: the complete invocation list is the light call, the
strict call, then the permissive call, and nothing after it. -/
theorem c1_full_retry_once (parser : Parser) (uerr : Nat → Option String)
    (name : String) (buf : List Nat) (e1 e2 : String)
    (hext : extLower name = ".replay") (hlen : 100 ≤ buf.length)
    (hreach : (∃ d, parser buf lightConfig = .ok d) ∨ buf.take 5 = ubulkBytes)
    (h1 : parser buf fullStrictConfig = .error e1)
    (h2 : parser buf fullPermissiveConfig = .error e2) :
    (handleUpload parser uerr (some ⟨name, buf⟩) true).fst = .serverError fullFailMsg ∧
    parseCalls (handleUpload parser uerr (some ⟨name, buf⟩) true).snd
      = [lightConfig, fullStrictConfig, fullPermissiveConfig] := by
  have hlen' : ¬ (buf.length < 100) := by omega
  rcases hl : parser buf lightConfig with el | dl
  · rcases hreach with ⟨d, hd⟩ | hmagic
    · rw [hl] at hd; exact Except.noConfusion hd
    · simp [handleUpload, hext, hlen', hl, hmagic, afterHeader, h1, h2, parseCalls]
  · simp [handleUpload, hext, hlen', hl, afterHeader, h1, h2, parseCalls]

/-- Witness for c1_full_retry_once: a parser that succeeds at header
depth and throws at both full-depth configurations. -/
theorem c1_full_retry_once_witness :
    extLower "a.replay" = ".replay" ∧
    100 ≤ (ubulkBytes ++ [1, 0, 0, 0] ++ List.replicate 91 0).length ∧
    ((handleUpload (fun _ cfg => if cfg.parseLevel = 0 then Except.ok 1 else Except.error "boom")
        (fun _ => none)
        (some ⟨"a.replay", ubulkBytes ++ [1, 0, 0, 0] ++ List.replicate 91 0⟩) true).fst
        = .serverError fullFailMsg ∧
      parseCalls (handleUpload
        (fun _ cfg => if cfg.parseLevel = 0 then Except.ok 1 else Except.error "boom")
        (fun _ => none)
        (some ⟨"a.replay", ubulkBytes ++ [1, 0, 0, 0] ++ List.replicate 91 0⟩) true).snd
        = [lightConfig, fullStrictConfig, fullPermissiveConfig]) :=
  ⟨by decide, by decide,
    c1_full_retry_once
      (fun _ cfg => if cfg.parseLevel = 0 then Except.ok 1 else Except.error "boom")
      (fun _ => none) "a.replay" (ubulkBytes ++ [1, 0, 0, 0] ++ List.replicate 91 0)
      "boom" "boom" (by decide) (by decide) (Or.inl ⟨1, rfl⟩) rfl rfl⟩

/-- Counterexample to C3 as stated: an upload whose first 5 bytes do not
equal the signature, under a parser that succeeds at header depth,
completes with a success body — the pipeline does not fail with a
format-mismatch outcome — and the parser has already been invoked, so
the condition is not detected before the parser call. -/
theorem c3_counterexample :
    (List.replicate 100 0).take 5 ≠ ubulkBytes ∧
    (handleUpload (fun _ _ => Except.ok 7) (fun _ => none)
        (some ⟨"a.replay", List.replicate 100 0⟩) false).fst
      = Response.headerMinimal (HeaderData.parsed 7) headerMinimalMsg ∧
    parseCalls (handleUpload (fun _ _ => Except.ok 7) (fun _ => none)
        (some ⟨"a.replay", List.replicate 100 0⟩) false).snd = [lightConfig] := by
  decide

/-- C3 amended: the signature check runs only inside the failure handler
of the header-only parse attempt — when that attempt throws and the
first 5 bytes do not equal the signature, the request fails with the
magic-mismatch error surfaced as a server error (status 500), after
exactly one parser invocation. -/
theorem c3_amended_magic_mismatch (parser : Parser) (uerr : Nat → Option String)
    (name : String) (buf : List Nat) (full : Bool) (e : String)
    (hext : extLower name = ".replay") (hlen : 100 ≤ buf.length)
    (hlight : parser buf lightConfig = .error e)
    (hmagic : buf.take 5 ≠ ubulkBytes) :
    (handleUpload parser uerr (some ⟨name, buf⟩) full).fst = .serverError magicMismatchMsg ∧
    parseCalls (handleUpload parser uerr (some ⟨name, buf⟩) full).snd = [lightConfig] := by
  have hlen' : ¬ (buf.length < 100) := by omega
  simp [handleUpload, hext, hlen', hlight, hmagic, parseCalls]

/-- Witness for c3_amended_magic_mismatch at a concrete all-zero 100-byte
upload under a parser that always throws. -/
theorem c3_amended_magic_mismatch_witness :
    extLower "a.replay" = ".replay" ∧
    100 ≤ (List.replicate 100 0 : List Nat).length ∧
    (List.replicate 100 0 : List Nat).take 5 ≠ ubulkBytes ∧
    ((handleUpload (fun _ _ => Except.error "boom") (fun _ => none)
        (some ⟨"a.replay", List.replicate 100 0⟩) false).fst
        = .serverError magicMismatchMsg ∧
      parseCalls (handleUpload (fun _ _ => Except.error "boom") (fun _ => none)
        (some ⟨"a.replay", List.replicate 100 0⟩) false).snd = [lightConfig]) :=
  ⟨by decide, by decide, by decide,
    c3_amended_magic_mismatch (fun _ _ => Except.error "boom") (fun _ => none) "a.replay"
      (List.replicate 100 0) false "boom" (by decide) (by decide) rfl (by decide)⟩

/-- Counterexample to C6 as stated: for a full=true request whose
header-only invocation throws, the failure is not simply tolerated with
an absent header — here (an all-zero buffer, so the signature check of
the fallback fails) the request terminates with the magic-mismatch
error and the pipeline never reaches a full-depth invocation: the only
parser call is the light one. -/
theorem c6_counterexample :
    (handleUpload (fun _ _ => Except.error "nope") (fun _ => none)
        (some ⟨"a.replay", List.replicate 100 0⟩) true).fst
      = Response.serverError magicMismatchMsg ∧
    parseCalls (handleUpload (fun _ _ => Except.error "nope") (fun _ => none)
        (some ⟨"a.replay", List.replicate 100 0⟩) true).snd = [lightConfig] := by
  decide

/-- C6 amended: for a full=true request whose header-only invocation
throws, the manual fallback still runs.  With a valid signature the
pipeline proceeds to the full-depth attempts (light call then strict
full-depth call) and any successful FULL body carries the
manually-extracted header rather than an absent one; with an invalid
signature the request fails with the magic-mismatch error and no
full-depth invocation takes place. -/
theorem c6_amended_fallback_runs (parser : Parser) (uerr : Nat → Option String)
    (name : String) (buf : List Nat) (e : String)
    (hext : extLower name = ".replay") (hlen : 100 ≤ buf.length)
    (hlight : parser buf lightConfig = .error e) :
    (buf.take 5 = ubulkBytes →
      (parseCalls (handleUpload parser uerr (some ⟨name, buf⟩) true).snd).take 2
        = [lightConfig, fullStrictConfig] ∧
      ∀ h d, (handleUpload parser uerr (some ⟨name, buf⟩) true).fst = .full h d →
        h = manualHeader buf) ∧
    (buf.take 5 ≠ ubulkBytes →
      (handleUpload parser uerr (some ⟨name, buf⟩) true).fst = .serverError magicMismatchMsg ∧
      parseCalls (handleUpload parser uerr (some ⟨name, buf⟩) true).snd = [lightConfig]) := by
  have hlen' : ¬ (buf.length < 100) := by omega
  constructor
  · intro hmagic
    rcases h1 : parser buf fullStrictConfig with e1 | d1
    · rcases h2 : parser buf fullPermissiveConfig with e2 | d2 <;>
        simp [handleUpload, hext, hlen', hlight, hmagic, afterHeader, h1, h2, parseCalls]
    · simp [handleUpload, hext, hlen', hlight, hmagic, afterHeader, h1, parseCalls]
  · intro hmagic
    simp [handleUpload, hext, hlen', hlight, hmagic, parseCalls]

/-- Witness for c6_amended_fallback_runs: valid-signature buffer, parser
throwing at header depth and succeeding at full depth. -/
theorem c6_amended_fallback_runs_witness :
    extLower "a.replay" = ".replay" ∧
    100 ≤ (ubulkBytes ++ [1, 0, 0, 0] ++ List.replicate 91 0).length ∧
    (fun _ cfg => if cfg.parseLevel = 0 then Except.error "le" else Except.ok 5 : Parser)
        (ubulkBytes ++ [1, 0, 0, 0] ++ List.replicate 91 0) lightConfig = .error "le" ∧
    (((ubulkBytes ++ [1, 0, 0, 0] ++ List.replicate 91 0).take 5 = ubulkBytes →
      (parseCalls (handleUpload
          (fun _ cfg => if cfg.parseLevel = 0 then Except.error "le" else Except.ok 5)
          (fun _ => none)
          (some ⟨"a.replay", ubulkBytes ++ [1, 0, 0, 0] ++ List.replicate 91 0⟩) true).snd).take 2
        = [lightConfig, fullStrictConfig] ∧
      ∀ h d, (handleUpload
          (fun _ cfg => if cfg.parseLevel = 0 then Except.error "le" else Except.ok 5)
          (fun _ => none)
          (some ⟨"a.replay", ubulkBytes ++ [1, 0, 0, 0] ++ List.replicate 91 0⟩) true).fst
          = .full h d →
        h = manualHeader (ubulkBytes ++ [1, 0, 0, 0] ++ List.replicate 91 0)) ∧
    ((ubulkBytes ++ [1, 0, 0, 0] ++ List.replicate 91 0).take 5 ≠ ubulkBytes →
      (handleUpload
          (fun _ cfg => if cfg.parseLevel = 0 then Except.error "le" else Except.ok 5)
          (fun _ => none)
          (some ⟨"a.replay", ubulkBytes ++ [1, 0, 0, 0] ++ List.replicate 91 0⟩) true).fst
        = .serverError magicMismatchMsg ∧
      parseCalls (handleUpload
          (fun _ cfg => if cfg.parseLevel = 0 then Except.error "le" else Except.ok 5)
          (fun _ => none)
          (some ⟨"a.replay", ubulkBytes ++ [1, 0, 0, 0] ++ List.replicate 91 0⟩) true).snd
        = [lightConfig])) :=
  ⟨by decide, by decide, rfl,
    c6_amended_fallback_runs
      (fun _ cfg => if cfg.parseLevel = 0 then Except.error "le" else Except.ok 5)
      (fun _ => none) "a.replay" (ubulkBytes ++ [1, 0, 0, 0] ++ List.replicate 91 0) "le"
      (by decide) (by decide) rfl⟩

/-- The tail phase of the index.js handler appends exactly one unlink
attempt to the trace it is given. -/
theorem afterHeader_countUnlinks (parser : Parser) (uerr : Nat → Option String)
    (buf : List Nat) (full : Bool) (header : HeaderData) (tr : List Event) :
    countUnlinks (afterHeader parser uerr buf full header tr).snd = countUnlinks tr + 1 := by
  cases full
  · simp [afterHeader, countUnlinks, List.filterMap_append]
  · rcases h1 : parser buf fullStrictConfig with e1 | d1
    · rcases h2 : parser buf fullPermissiveConfig with e2 | d2 <;>
        simp [afterHeader, h1, h2, countUnlinks, List.filterMap_append]
    · simp [afterHeader, h1, countUnlinks, List.filterMap_append]

/-- The response of the tail phase of the index.js handler does not
depend on the unlink oracle: every unlink there is guarded. -/
theorem afterHeader_fst_indep (parser : Parser) (uerr uerr' : Nat → Option String)
    (buf : List Nat) (full : Bool) (header : HeaderData) (tr tr' : List Event) :
    (afterHeader parser uerr buf full header tr).fst
      = (afterHeader parser uerr' buf full header tr').fst := by
  cases full
  · simp [afterHeader]
  · rcases h1 : parser buf fullStrictConfig with e1 | d1
    · rcases h2 : parser buf fullPermissiveConfig with e2 | d2 <;> simp [afterHeader, h1, h2]
    · simp [afterHeader, h1]

/-- Counterexample to C5 as stated over the part_002 handler: with a
parser that succeeds at the first ladder attempt and a filesystem whose
unlink raises, the deletion error is not swallowed — the successful
parse is answered with the failure body carrying the unlink error
message — and the deletion is attempted twice, not exactly once. -/
theorem c5_counterexample :
    safeParseReplay (fun _ _ => Except.ok 3) (List.replicate 100 0)
      = (.ok 3, [Event.parse p2Attempt0]) ∧
    (p2Handle (fun _ _ => Except.ok 3)
        (fun _ => some "ENOENT: no such file or directory")
        (some (List.replicate 100 0))).fst
      = P2Response.failure "ENOENT: no such file or directory" ∧
    countUnlinks (p2Handle (fun _ _ => Except.ok 3)
        (fun _ => some "ENOENT: no such file or directory")
        (some (List.replicate 100 0))).snd = 2 :=
  ⟨rfl, rfl, rfl⟩

/-- C5 amended: in the index.js variant the cleanup contract does hold —
on every terminal outcome with a file present the temp-file deletion is
attempted exactly once before the response, and the response is the
same whatever the unlink oracle answers, since every unlink there is
guarded.  (In the part_002 variant the success-path deletion is
unguarded, so a deletion error there surfaces as a failure response and
triggers a second deletion attempt.) -/
theorem c5_amended_cleanup (parser : Parser) (uerr uerr' : Nat → Option String)
    (name : String) (buf : List Nat) (full : Bool) :
    countUnlinks (handleUpload parser uerr (some ⟨name, buf⟩) full).snd = 1 ∧
    (handleUpload parser uerr (some ⟨name, buf⟩) full).fst
      = (handleUpload parser uerr' (some ⟨name, buf⟩) full).fst := by
  by_cases hext : extLower name = ".replay"
  · by_cases hlen : buf.length < 100
    · simp [handleUpload, hext, hlen, countUnlinks]
    · rcases hl : parser buf lightConfig with el | dl
      · by_cases hmagic : buf.take 5 = ubulkBytes
        · have hred : handleUpload parser uerr (some ⟨name, buf⟩) full
              = afterHeader parser uerr buf full (manualHeader buf) [Event.parse lightConfig] := by
            simp [handleUpload, hext, hlen, hl, hmagic]
          have hred' : handleUpload parser uerr' (some ⟨name, buf⟩) full
              = afterHeader parser uerr' buf full (manualHeader buf) [Event.parse lightConfig] := by
            simp [handleUpload, hext, hlen, hl, hmagic]
          rw [hred, hred', afterHeader_countUnlinks]
          exact ⟨rfl, afterHeader_fst_indep parser uerr uerr' buf full (manualHeader buf) _ _⟩
        · simp [handleUpload, hext, hlen, hl, hmagic, countUnlinks]
      · have hred : handleUpload parser uerr (some ⟨name, buf⟩) full
            = afterHeader parser uerr buf full (.parsed dl) [Event.parse lightConfig] := by
          simp [handleUpload, hext, hlen, hl]
        have hred' : handleUpload parser uerr' (some ⟨name, buf⟩) full
            = afterHeader parser uerr' buf full (.parsed dl) [Event.parse lightConfig] := by
          simp [handleUpload, hext, hlen, hl]
        rw [hred, hred', afterHeader_countUnlinks]
        exact ⟨rfl, afterHeader_fst_indep parser uerr uerr' buf full (.parsed dl) _ _⟩
  · simp [handleUpload, hext, countUnlinks]

/-- C7: requests whose declared filename does not carry the expected
extension case-insensitively are rejected with the 400 extension error
and no parser invocation; the multer fileFilter of the other variants
accepts exactly the names whose lower-cased extension is ".replay"; and
an upper-case ".REPLAY" name passes both the filter and the index.js
check (the latter shown by a full run that reaches the parser and
succeeds). -/
theorem c7_extension_check :
    (∀ (parser : Parser) (uerr : Nat → Option String) (name : String)
        (buf : List Nat) (full : Bool),
      extLower name ≠ ".replay" →
        (handleUpload parser uerr (some ⟨name, buf⟩) full).fst = .badRequest extErrMsg ∧
        parseCalls (handleUpload parser uerr (some ⟨name, buf⟩) full).snd = []) ∧
    (∀ name : String, fileFilter name = .ok () ↔ extLower name = ".replay") ∧
    fileFilter "game.REPLAY" = .ok () ∧
    (handleUpload (fun _ _ => Except.ok 0) (fun _ => none)
        (some ⟨"game.REPLAY", List.replicate 100 0⟩) false).fst
      = .headerMinimal (.parsed 0) headerMinimalMsg := by
  refine ⟨?_, ?_, rfl, by decide⟩
  · intro parser uerr name buf full hext
    simp [handleUpload, hext, parseCalls]
  · intro name
    by_cases hc : extLower name = ".replay" <;> simp [fileFilter, hc]

/-- Witness for c7_extension_check, applying its universal rejection part
at a concrete wrong-extension upload. -/
theorem c7_extension_check_witness :
    extLower "notes.txt" ≠ ".replay" ∧
    ((handleUpload (fun _ _ => Except.ok 0) (fun _ => none)
        (some ⟨"notes.txt", List.replicate 100 0⟩) false).fst = .badRequest extErrMsg ∧
      parseCalls (handleUpload (fun _ _ => Except.ok 0) (fun _ => none)
        (some ⟨"notes.txt", List.replicate 100 0⟩) false).snd = []) :=
  ⟨by decide,
    c7_extension_check.1 (fun _ _ => Except.ok 0) (fun _ => none) "notes.txt"
      (List.replicate 100 0) false (by decide)⟩

/-- C9: in the timeout variant the parse races a fixed 10000 ms delay,
and exceeding the delay is treated exactly as a parse failure: the
timed-out run is literally equal to a run whose parser throws the
timeout message, it answers with the failure body carrying that
message, and cleanup (one unlink attempt) still happens. -/
theorem c9_timeout_as_failure :
    parseTimeoutMs = 10000 ∧
    ∀ (parser : Parser) (uerr : Nat → Option String) (buf : List Nat),
      tvHandle parser uerr (some buf) true
        = tvHandle (fun _ _ => Except.error timeoutMsg) uerr (some buf) false ∧
      (tvHandle parser uerr (some buf) true).fst = .failure timeoutMsg ∧
      countUnlinks (tvHandle parser uerr (some buf) true).snd = 1 := by
  exact ⟨rfl, fun parser uerr buf => ⟨rfl, rfl, rfl⟩⟩
